import Mathlib

/-!
Verification of the PAX single-header C++ library (src/pax/pax/pax.h) against its
natural-language specification.  The decoder (rasterFile::import and the functions
it calls), the encoder (rasterFile::writeToBuffer / writeMeta), the metadata store
operations and the raster accessor are shallowly embedded below, byte for byte at
the level of the original scanning code.  Buffers are lists of byte values
(natural numbers below 256); positions are indices; every C++ scanning loop is
embedded as a fuel-bounded recursion whose fuel is large enough to cover any
in-buffer scan, so that running out of fuel only models the out-of-bounds /
non-terminating executions that are undefined behaviour in the C++ original.
-/

namespace PaxV

/-- Byte buffers are lists of natural numbers (byte values). -/
abbrev Buf := List Nat

/-- ASCII bytes of a Lean string literal, used to write header tags and inputs. -/
def strBytes (s : String) : List Nat := s.toList.map Char.toNat

/-- Reading a byte at an index; out-of-range reads yield 0.  The C++ code reads
raw memory out of bounds in these situations (undefined behaviour); the model
makes the read deterministic. -/
def byteAt (b : Buf) (pos : Nat) : Nat := b.getD pos 0

/-- ASCII lower-casing of a byte, mirroring tolower for A-Z. -/
def lowerB (b : Nat) : Nat := if 65 ≤ b ∧ b ≤ 90 then b + 32 else b

/-- strncat semantics: the copied data stops at the first NUL byte of the source. -/
def takeToNull (l : List Nat) : List Nat := l.takeWhile (fun b => b ≠ 0)

/-- Decimal digits of a natural number (ASCII), as printed by the C++ streams. -/
def natDec (n : Nat) : List Nat := (Nat.toDigits 10 n).map Char.toNat

/-- Decimal rendering of an integer with sign, as printed by the C++ streams. -/
def intDec (i : Int) : List Nat :=
  if i < 0 then 45 :: natDec i.natAbs else natDec i.natAbs

/-- Fixed two-decimal rendering of the version (stored in the model as integer
hundredths), mirroring the stream manipulators fixed and setprecision(2). -/
def fixed2 (v : Int) : List Nat :=
  let sign : List Nat := if v < 0 then [45] else []
  let n := v.natAbs
  sign ++ natDec (n / 100) ++ [46] ++ natDec (n % 100 / 10) ++ natDec (n % 10)

/-- Little-endian byte encoding of a value into a given number of bytes,
modelling how scalar values sit in the meta union on the x86 targets the
library is built for. -/
def encLE (width : Nat) (v : Nat) : List Nat :=
  match width with
  | 0 => []
  | w + 1 => v % 256 :: encLE w (v / 256)

/-- Little-endian decoding of bytes to an unsigned value. -/
def decLE (l : List Nat) : Nat :=
  match l with
  | [] => 0
  | b :: rest => b % 256 + 256 * decLE rest

/-- Interpretation of a little-endian byte list as a two's-complement signed value. -/
def decLES (l : List Nat) : Int :=
  let u := decLE l
  let m := 256 ^ l.length
  if 2 * u ≥ m then (u : Int) - (m : Int) else (u : Int)

/-! ## The type registry (PAX_TYPE_DATA)

Each entry of the compile-time table carries (code, bpv, vpe, printable name).
The vpe column is resolved through the value-space table of the source
(MAG has 1 value per element, MAGPHASE and COMPLEX 2, RGB and HSV 3, and so on). -/

/-- The pax type registry: code, bytes per value, values per element, name. -/
def paxTypeTable : List (Int × Nat × Nat × String) :=
  [ (-1, 0, 0, "INVALID"),
    (0, 1, 1, "SF_MAG_UCHAR"),
    (1, 2, 2, "SF_MAG_PHASE_USHORT"),
    (2, 2, 2, "SF_COMPLEX_USHORT"),
    (3, 4, 2, "SF_COMPLEX_UINT"),
    (4, 8, 2, "SF_COMPLEX_ULONG"),
    (5, 1, 1, "SF_MAG_CHAR"),
    (6, 2, 2, "SF_MAG_PHASE_SHORT"),
    (7, 2, 2, "SF_COMPLEX_SHORT"),
    (8, 4, 2, "SF_COMPLEX_INT"),
    (9, 8, 2, "SF_COMPLEX_LONG"),
    (10, 4, 2, "SF_COMPLEX_SINGLE"),
    (11, 8, 2, "SF_COMPLEX_DOUBLE"),
    (12, 1, 2, "SF_MAG_PHASE_UCHAR"),
    (13, 1, 2, "SF_MAG_PHASE_CHAR"),
    (14, 1, 3, "SF_RGB_UCHAR"),
    (15, 1, 3, "SF_HSV_UCHAR"),
    (16, 0, 0, "SF_UNDEFINED_PIXEL_TYPE"),
    (99, 0, 0, "CUSTOM"),
    (100, 1, 1, "CHAR"),
    (101, 1, 1, "UCHAR"),
    (102, 2, 1, "SHORT"),
    (103, 2, 1, "USHORT"),
    (104, 4, 1, "INT"),
    (105, 4, 1, "UINT"),
    (106, 8, 1, "LONG"),
    (107, 8, 1, "ULONG"),
    (108, 2, 1, "HALF"),
    (109, 4, 1, "FLOAT"),
    (110, 8, 1, "DOUBLE"),
    (111, 16, 1, "QUADRUPLE"),
    (199, 0, 0, "META_ONLY"),
    (200, 4, 3, "FLOAT3"),
    (1001, 1, 1, "PBM_ASCII"),
    (1002, 1, 1, "PGM_ASCII"),
    (1003, 1, 3, "PPM_ASCII"),
    (1004, 1, 1, "PBM_BINARY"),
    (1005, 1, 1, "PGM_BINARY"),
    (1006, 1, 3, "PPM_BINARY") ]

/-- rasterFileBase::isPaxType: the code -1 (ePAX_INVALID) is rejected first,
every other registry code is accepted. -/
def isPaxType (t : Int) : Bool :=
  if t = -1 then false else paxTypeTable.any (fun e => e.1 = t)

/-- rasterFileBase::getPaxType: registry membership test returning the code or -1. -/
def getPaxType (t : Int) : Int := if isPaxType t then t else -1

/-- rasterFileBase::getBPV: bytes per value for a registry code (0 outside). -/
def getBPVn (t : Int) : Nat :=
  if isPaxType t then
    match paxTypeTable.find? (fun e => e.1 = t) with
    | some e => e.2.1
    | none => 0
  else 0

/-- rasterFileBase::getVPE: values per element for a registry code (0 outside). -/
def getVPEn (t : Int) : Nat :=
  if isPaxType t then
    match paxTypeTable.find? (fun e => e.1 = t) with
    | some e => e.2.2.1
    | none => 0
  else 0

/-- rasterFileBase::getTypeName: printable name PAX_<entry> (PAX_INVALID outside
the registry). -/
def typeNameB (t : Int) : List Nat :=
  if isPaxType t then
    match paxTypeTable.find? (fun e => e.1 = t) with
    | some e => strBytes ("PAX_" ++ e.2.2.2)
    | none => strBytes "PAX_INVALID"
  else strBytes "PAX_INVALID"

/-! ## Header tag constants -/

def paxTagB : List Nat := strBytes "PAX"
def bpvTagB : List Nat := strBytes "BYTES_PER_VALUE"
def vpeTagB : List Nat := strBytes "VALUES_PER_ELEMENT"
def dim1TagB : List Nat := strBytes "ELEMENTS_IN_SEQUENTIAL_DIMENSION"
def dim2TagB : List Nat := strBytes "ELEMENTS_IN_STRIDED_DIMENSION"
def datalenTagB : List Nat := strBytes "DATA_LENGTH"

/-- The eleven metadata type tags, indexed by the paxMetaDataTypes enum value
(0 = string .. 10 = uint8), in the order of the metaTypeTags table. -/
def metaTypeTagB (i : Nat) : List Nat :=
  match i with
  | 0 => strBytes "string"
  | 1 => strBytes "float"
  | 2 => strBytes "double"
  | 3 => strBytes "int64"
  | 4 => strBytes "uint64"
  | 5 => strBytes "int32"
  | 6 => strBytes "uint32"
  | 7 => strBytes "int16"
  | 8 => strBytes "uint16"
  | 9 => strBytes "int8"
  | _ => strBytes "uint8"

/-- getMetaDataTypeSize: byte size of a numeric metadata type (enum value 1..10). -/
def metaTypeSize (i : Nat) : Nat :=
  match i with
  | 1 => 4
  | 2 => 8
  | 3 => 8
  | 4 => 8
  | 5 => 4
  | 6 => 4
  | 7 => 2
  | 8 => 2
  | 9 => 1
  | 10 => 1
  | _ => 0

/-- The four metadata array ordinal tags (PaxStatic::getMetaArrayIndexTag). -/
def ordTagB (i : Nat) : List Nat :=
  match i with
  | 0 => strBytes "first"
  | 1 => strBytes "second"
  | 2 => strBytes "third"
  | _ => strBytes "fourth"

/-! ## The lexical scanner (class BufMan)

Whitespace is space, tab and CR, with LF optionally included.  All scans use a
fuel argument; the callers pass fuel that covers the whole buffer. -/

/-- Is a byte PAX whitespace (BufMan::skipWS loop condition). -/
def isWSb (skipLF : Bool) (b : Nat) : Bool :=
  b == 32 || b == 9 || b == 13 || (skipLF && b == 10)

/-- BufMan::skipWS with explicit fuel. -/
def skipWSF (b : Buf) (skipLF : Bool) : Nat → Nat → Nat
  | 0, pos => pos
  | fuel + 1, pos =>
    if isWSb skipLF (byteAt b pos) then skipWSF b skipLF fuel (pos + 1) else pos

/-- BufMan::skipWS: advance over whitespace (and optionally LF). -/
def skipWS (b : Buf) (skipLF : Bool) (pos : Nat) : Nat :=
  skipWSF b skipLF (b.length + 1) pos

/-- Does a byte terminate a junk scan (BufMan::skipJunk stop set). -/
def isJunkStop (b : Nat) : Bool :=
  b == 35 || b == 32 || b == 9 || b == 13 || b == 58 || b == 61 || b == 91 || b == 93 || b == 10

/-- The scanning part of BufMan::skipJunk, with fuel; the scan also stops at the
end of the buffer (the C++ code would read past the allocation there). -/
def skipJunkF (b : Buf) : Nat → Nat → Nat
  | 0, pos => pos
  | fuel + 1, pos =>
    if pos ≥ b.length then pos
    else if isJunkStop (byteAt b pos) then pos
    else skipJunkF b fuel (pos + 1)

/-- BufMan::skipJunk: advance to the next delimiter-class byte, then optionally
step over a LF. -/
def skipJunk (b : Buf) (skipLF : Bool) (pos : Nat) : Nat :=
  let p := skipJunkF b (b.length + 1) pos
  if skipLF && byteAt b p == 10 then p + 1 else p

/-- BufMan::skipJunkAndWS. -/
def skipJunkWS (b : Buf) (skipLF : Bool) (pos : Nat) : Nat :=
  skipWS b skipLF (skipJunk b skipLF pos)

/-- Scan for the next ':' or '=' byte (the un-bounded while loop inside
BufMan::skipDelimiter); clamped to the end of the buffer. -/
def scanDelimF (b : Buf) : Nat → Nat → Nat
  | 0, pos => pos
  | fuel + 1, pos =>
    if pos ≥ b.length then pos
    else if byteAt b pos == 58 || byteAt b pos == 61 then pos
    else scanDelimF b fuel (pos + 1)

/-- BufMan::skipDelimiter: skip one byte, whitespace, scan to ':' or '=', skip
it and trailing whitespace. -/
def skipDelim (b : Buf) (skipLF : Bool) (pos : Nat) : Nat :=
  let p1 := skipWS b skipLF (pos + 1)
  let p2 := scanDelimF b (b.length + 1) p1
  skipWS b skipLF (p2 + 1)

/-- strchr for a byte from a position: index of the first occurrence. -/
def strchrP (b : Buf) (pos : Nat) (c : Nat) : Option Nat :=
  match (b.drop pos).findIdx? (fun x => x == c) with
  | some i => some (pos + i)
  | none => none

/-- BufMan::skipLine: advance one past the next LF.  A missing LF is clamped to
the end of the buffer (out-of-bounds scan in the C++ original). -/
def skipLine (b : Buf) (pos : Nat) : Nat :=
  match strchrP b pos 10 with
  | some i => i + 1
  | none => b.length

/-- BufMan::skipChar: skip junk and whitespace, then the given byte (if present)
and more whitespace. -/
def skipChar (c : Nat) (b : Buf) (skipLF : Bool) (pos : Nat) : Nat :=
  let p := skipJunkWS b skipLF pos
  if byteAt b p ≠ c then p else skipWS b skipLF (p + 1)

/-- BufMan::compare / _stricmp of a tag against the buffer prefix at a position,
case-insensitively.  The C++ code NUL-terminates the buffer at the tag length,
so this is a prefix comparison; a short or NUL-containing slice never matches. -/
def tagMatchCI (b : Buf) (pos : Nat) (tag : List Nat) : Bool :=
  ((b.drop pos).take tag.length).map lowerB == tag.map lowerB

/-- strncmp-style case-SENSITIVE comparison of the first n bytes (used only for
the leading PAX tag in validatePaxTag). -/
def tagMatchCS (b : Buf) (pos : Nat) (tag : List Nat) : Bool :=
  (b.drop pos).take tag.length == tag

end PaxV

namespace PaxV

/-! ## Number extraction (strtol / strtoul / strtof)

The extractors are modelled over an abstract byte reader so that the same code
serves both the plain buffer and the buffer as seen while a TempNull temporarily
terminates the current line (validatePaxTag).  A reader returns 0 beyond the
buffer; 0 is neither space nor digit, so runs stop there. -/

/-- The buffer as seen while a TempNull holds a NUL at position eol. -/
def byteAtEol (b : Buf) (eol : Nat) (pos : Nat) : Nat :=
  if pos = eol then 0 else byteAt b pos

/-- C-locale isspace (strtol-family leading whitespace). -/
def isCSpace (b : Nat) : Bool := b == 32 || (9 ≤ b && b ≤ 13)

/-- Skip C whitespace through a reader, with fuel. -/
def cSpaceSkipF (rd : Nat → Nat) : Nat → Nat → Nat
  | 0, pos => pos
  | fuel + 1, pos => if isCSpace (rd pos) then cSpaceSkipF rd fuel (pos + 1) else pos

/-- Run of decimal digits: value, digit count and end position. -/
def decRunF (rd : Nat → Nat) : Nat → Nat → Nat → Nat → (Nat × Nat × Nat)
  | 0, pos, acc, cnt => (acc, cnt, pos)
  | fuel + 1, pos, acc, cnt =>
    let b := rd pos
    if 48 ≤ b ∧ b ≤ 57 then decRunF rd fuel (pos + 1) (acc * 10 + (b - 48)) (cnt + 1)
    else (acc, cnt, pos)

/-- Hexadecimal digit value, if any. -/
def hexVal (b : Nat) : Option Nat :=
  if 48 ≤ b ∧ b ≤ 57 then some (b - 48)
  else if 97 ≤ b ∧ b ≤ 102 then some (b - 87)
  else if 65 ≤ b ∧ b ≤ 70 then some (b - 55)
  else none

/-- Run of hexadecimal digits. -/
def hexRunF (rd : Nat → Nat) : Nat → Nat → Nat → Nat → (Nat × Nat × Nat)
  | 0, pos, acc, cnt => (acc, cnt, pos)
  | fuel + 1, pos, acc, cnt =>
    match hexVal (rd pos) with
    | some d => hexRunF rd fuel (pos + 1) (acc * 16 + d) (cnt + 1)
    | none => (acc, cnt, pos)

/-- Run of octal digits. -/
def octRunF (rd : Nat → Nat) : Nat → Nat → Nat → Nat → (Nat × Nat × Nat)
  | 0, pos, acc, cnt => (acc, cnt, pos)
  | fuel + 1, pos, acc, cnt =>
    let b := rd pos
    if 48 ≤ b ∧ b ≤ 55 then octRunF rd fuel (pos + 1) (acc * 8 + (b - 48)) (cnt + 1)
    else (acc, cnt, pos)

/-- Optional sign; returns negativity flag and the following position. -/
def signAt (rd : Nat → Nat) (pos : Nat) : Bool × Nat :=
  if rd pos == 45 then (true, pos + 1)
  else if rd pos == 43 then (false, pos + 1) else (false, pos)

/-- strtol with base 10 over a reader (only used for the PAX type code; the
LONG_MAX / LONG_MIN clamps are not modelled, header codes being small).  On
no conversion the end position is the original one, as with strtol. -/
def strtol10R (rd : Nat → Nat) (fuel : Nat) (pos : Nat) : Int × Nat :=
  let p1 := cSpaceSkipF rd fuel pos
  let s := signAt rd p1
  let r := decRunF rd fuel s.2 0 0
  if r.2.1 = 0 then (0, pos)
  else ((if s.1 then -(r.1 : Int) else (r.1 : Int)), r.2.2)

/-- strtol / strtoul with base 0 over a reader: 0x hex, leading-0 octal, else
decimal, with optional sign. -/
def strtoul0R (rd : Nat → Nat) (fuel : Nat) (pos : Nat) : Int × Nat :=
  let p1 := cSpaceSkipF rd fuel pos
  let s := signAt rd p1
  let p2 := s.2
  let sgn : Nat → Int := fun v => if s.1 then -(v : Int) else (v : Int)
  if rd p2 == 48 ∧ (rd (p2 + 1) == 120 ∨ rd (p2 + 1) == 88) ∧ (hexVal (rd (p2 + 2))).isSome then
    let r := hexRunF rd fuel (p2 + 2) 0 0
    (sgn r.1, r.2.2)
  else if rd p2 == 48 then
    let r := octRunF rd fuel p2 0 0
    (sgn r.1, r.2.2)
  else
    let r := decRunF rd fuel p2 0 0
    if r.2.1 = 0 then (0, pos) else (sgn r.1, r.2.2)

/-- strtof / strtod modelled to integer hundredths: sign, integer digits,
optional fraction, optional exponent.  The position advance is exact; the
numeric value keeps two decimal places and ignores the exponent's magnitude
(the development never relies on the numeric value of a parsed float beyond
the two-decimal version numbers the writer itself prints). -/
def strtofR (rd : Nat → Nat) (fuel : Nat) (pos : Nat) : Int × Nat :=
  let p1 := cSpaceSkipF rd fuel pos
  let s := signAt rd p1
  let ri := decRunF rd fuel s.2 0 0
  let hasDot := rd ri.2.2 == 46
  let rf := if hasDot then decRunF rd fuel (ri.2.2 + 1) 0 0 else (0, 0, ri.2.2)
  if ri.2.1 = 0 ∧ (¬ hasDot ∨ rf.2.1 = 0) then (0, pos)
  else
    let pMant := rf.2.2
    let pEnd :=
      if rd pMant == 101 ∨ rd pMant == 69 then
        let se := signAt rd (pMant + 1)
        let re := decRunF rd fuel se.2 0 0
        if re.2.1 = 0 then pMant else re.2.2
      else pMant
    let frac2 :=
      if rf.2.1 = 0 then 0
      else if rf.2.1 = 1 then rf.1 * 10
      else rf.1 / 10 ^ (rf.2.1 - 2)
    let v : Int := (ri.1 * 100 + frac2 : Nat)
    ((if s.1 then -v else v), pEnd)

/-- Reduction of an extracted integer to uint32, as getUint32 stores it. -/
def toU32 (v : Int) : Nat := ((v % 4294967296 + 4294967296) % 4294967296).toNat

/-- Reduction of an extracted integer to w bytes (two's complement). -/
def toUW (w : Nat) (v : Int) : Nat :=
  ((v % ((256 : Int) ^ w) + (256 : Int) ^ w) % ((256 : Int) ^ w)).toNat

/-- BufMan::getUint32: optional delimiter skip (its skipDelimiter call always
skips linefeeds), strtoul with base 0, then junk-and-whitespace skip whose
linefeed behaviour follows the caller's skip flags. -/
def getU32 (b : Buf) (skipDelimFlag skipLFFlag : Bool) (pos : Nat) : Nat × Nat :=
  let p := if skipDelimFlag then skipDelim b true pos else pos
  let r := strtoul0R (byteAt b) (b.length + 1) p
  let p3 := skipJunkWS b skipLFFlag r.2
  (toU32 r.1, p3)

/-! ## validatePaxTag

rasterFileBase::validatePaxTag places a TempNull at the end of the first line,
reads the type code with strtol, optionally the version after a v, and finally
restores the byte and skips the line.  Its whitespace and delimiter skips run
while the NUL is in place, so they use the byteAtEol view. -/

/-- skipWS over the TempNull view. -/
def skipWSNF (b : Buf) (eol : Nat) (skipLF : Bool) : Nat → Nat → Nat
  | 0, pos => pos
  | fuel + 1, pos =>
    if isWSb skipLF (byteAtEol b eol pos) then skipWSNF b eol skipLF fuel (pos + 1) else pos

def skipWSN (b : Buf) (eol : Nat) (skipLF : Bool) (pos : Nat) : Nat :=
  skipWSNF b eol skipLF (b.length + 1) pos

/-- Delimiter scan over the TempNull view (clamped at the end of the buffer). -/
def scanDelimNF (b : Buf) (eol : Nat) : Nat → Nat → Nat
  | 0, pos => pos
  | fuel + 1, pos =>
    if pos ≥ b.length then pos
    else if byteAtEol b eol pos == 58 || byteAtEol b eol pos == 61 then pos
    else scanDelimNF b eol fuel (pos + 1)

/-- BufMan::skipDelimiter over the TempNull view. -/
def skipDelimN (b : Buf) (eol : Nat) (skipLF : Bool) (pos : Nat) : Nat :=
  let p1 := skipWSN b eol skipLF (pos + 1)
  let p2 := scanDelimNF b eol (b.length + 1) p1
  skipWSN b eol skipLF (p2 + 1)

/-- Result of validatePaxTag: success, type code, version (hundredths) and the
position after the line. -/
structure TagRes where
  ok : Bool
  ptype : Int
  ver : Int
  pos : Nat
deriving DecidableEq, Repr

/-- rasterFileBase::validatePaxTag.  A buffer with no LF at all makes the C++
strchr scan beyond the buffer; the model reports failure there. -/
def validatePaxTag (b : Buf) (pos0 : Nat) (ver0 : Int) : TagRes :=
  match strchrP b pos0 10 with
  | none => ⟨false, -1, ver0, pos0⟩
  | some eol =>
    if ((List.range 3).map (fun i => byteAtEol b eol (pos0 + i))) ≠ paxTagB then
      ⟨false, -1, ver0, pos0⟩
    else
      let p1 := pos0 + 3
      let r := strtol10R (byteAtEol b eol) (b.length + 1) p1
      let valid1 := r.1 ≠ 0 ∨ (r.1 = 0 ∧ byteAtEol b eol p1 = 48)
      let ptype := if valid1 then getPaxType r.1 else -1
      if ptype = -1 then ⟨false, -1, ver0, r.2⟩
      else
        let p3 := skipDelimN b eol false r.2
        let vr :=
          if byteAtEol b eol p3 = 118 ∨ byteAtEol b eol p3 = 86 then
            let p4 := skipWSN b eol true (p3 + 1)
            let fr := strtofR (byteAtEol b eol) (b.length + 1) p4
            (fr.1, skipDelimN b eol false fr.2)
          else (ver0, p3)
        ⟨true, ptype, vr.1, skipLine b vr.2⟩

end PaxV

namespace PaxV

/-! ## The metadata record (struct meta)

The C++ meta stores scalar payloads in a 256-byte union (the s buffer) and
array payloads either in that buffer or in an owned allocation; typed fields
(f, d, n64, fb, db, ...) are overlaid views of those bytes.  The model keeps a
single payload byte list for both.  The default constructor of the source
leaves stripped, index and num_dims uninitialized; the model takes the
zero-initialized values false / 0 / 0 for these.  Parsed float and double
payload bytes stand in for the IEEE bit patterns through the decimal-hundredths
reading encoded little-endian; no claim below depends on those byte values. -/

structure MetaT where
  loc : Int
  index : Nat
  mtype : Int
  numDims : Nat
  stripped : Bool
  dims : List Nat
  payload : List Nat
  mname : List Nat
deriving DecidableEq, Repr

/-- The default-constructed meta (location unknown, invalid type). -/
def metaDefault : MetaT :=
  { loc := -1, index := 0, mtype := -1, numDims := 0, stripped := false,
    dims := [], payload := [], mname := [] }

/-- The metadata map, with std::unordered_map operator[] semantics modelled as
an association list: assignment to an existing key replaces in place. -/
abbrev MetaMap := List (List Nat × MetaT)

/-- map[k] = v. -/
def mapSet (m : MetaMap) (k : List Nat) (v : MetaT) : MetaMap :=
  match m with
  | [] => [(k, v)]
  | (k0, v0) :: rest => if k0 = k then (k, v) :: rest else (k0, v0) :: mapSet rest k v

/-- map.find(k). -/
def mapFind (m : MetaMap) (k : List Nat) : Option MetaT :=
  match m with
  | [] => none
  | (k0, v0) :: rest => if k0 = k then some v0 else mapFind rest k

/-- meta::getCommentName: the synthetic key ;loc;index of a comment. -/
def commentName (loc : Int) (index : Nat) : List Nat :=
  [59] ++ intDec loc ++ [59] ++ natDec index

/-- meta::initArray on a fresh meta of the given type: arrays need a numeric
type and more than one element, otherwise the meta stays scalar; otherwise the
dims are stored and a payload of product-of-dims elements is allocated. -/
def initArrayM (m : MetaT) (t : Int) (dims : List Nat) : MetaT × Nat :=
  let count := dims.foldl (fun a d => a * d) 1
  if t < 1 ∨ 10 < t ∨ count ≤ 1 then
    ({ m with numDims := 0, dims := [], payload := [] }, 1)
  else
    let w := metaTypeSize t.toNat
    ({ m with
        numDims := dims.length
        dims := dims
        payload := List.replicate (w * count) 0 }, count)

/-- The metadata type-tag search of BufMan::getMeta: the first of the eleven
tags (string, float, double, int64, uint64, int32, uint32, int16, uint16,
int8, uint8) matching case-insensitively at the position. -/
def metaTypeIdx (b : Buf) (pos : Nat) : Option Nat :=
  (List.range 11).find? (fun i => tagMatchCI b pos (metaTypeTagB i))

/-- The meta-name scan: advance until space, tab, ':', '=' or '[' (clamped at
the end of the buffer, where the C++ scan would run out of bounds). -/
def nameScanF (b : Buf) : Nat → Nat → Nat
  | 0, pos => pos
  | fuel + 1, pos =>
    if pos ≥ b.length then pos
    else
      let c := byteAt b pos
      if c == 32 || c == 9 || c == 58 || c == 61 || c == 91 then pos
      else nameScanF b fuel (pos + 1)

def nameScan (b : Buf) (pos : Nat) : Nat := nameScanF b (b.length + 1) pos

/-- The ordinal-tag loop of the metadata array header: up to four dimensions,
each introduced by its ordinal tag and read by getUint32 with the default
delimiter skip. -/
def ordLoopF (b : Buf) : Nat → Nat → Nat → List Nat → (List Nat × Nat)
  | 0, _, pos, acc => (acc, pos)
  | left + 1, i, pos, acc =>
    if tagMatchCI b pos (ordTagB i) then
      let r := getU32 b true false pos
      ordLoopF b left (i + 1) r.2 (acc ++ [r.1])
    else (acc, pos)

/-- One numeric value read of the metadata value loop: float and double go
through the strtof model, the integer kinds through strtoul with base 0; all
use SKIP_NOTHING, so the junk-and-whitespace skip after the value leaves the
terminating linefeed in place. -/
def readMetaNum (b : Buf) (ti : Nat) (pos : Nat) : Int × Nat :=
  let r :=
    if ti = 1 ∨ ti = 2 then strtofR (byteAt b) (b.length + 1) pos
    else strtoul0R (byteAt b) (b.length + 1) pos
  (r.1, skipJunkWS b false r.2)

/-- The array-value loop: values are read one by one and laid out in the
payload at the element width of the declared kind. -/
def arrReadF (b : Buf) (ti : Nat) : Nat → Nat → List Nat → (List Nat × Nat)
  | 0, pos, acc => (acc, pos)
  | n + 1, pos, acc =>
    let w := metaTypeSize ti
    let r := readMetaNum b ti pos
    arrReadF b ti n r.2 (acc ++ encLE w (toUW w r.1))

/-- The scalar numeric store: the integer kinds are stored through the 64-bit
union members n64 / u64, floats through f (4 bytes) and doubles through d
(8 bytes). -/
def scalarPayload (ti : Nat) (v : Int) : List Nat :=
  if ti = 1 then encLE 4 (toUW 4 v) else encLE 8 (toUW 8 v)

/-- Result of BufMan::getMeta: key, meta, new position and new per-location
index of the buffer manager. -/
structure GetMetaRes where
  key : List Nat
  m : MetaT
  pos : Nat
  metaIdx : Nat
deriving Repr

/-- The comment/string trimming common to both getMeta branches: cap at 255
bytes, drop a trailing CR (inspected after capping; for an empty text the C++
reads the byte just before the text), strip one leading space.  Returns the
stripped flag, start position and length. -/
def trimText (b : Buf) (p eol : Nat) : Bool × Nat × Nat :=
  let len0 := eol - p
  let len1 := if len0 ≥ 256 then 255 else len0
  let len2 := if byteAt b (p + len1 - 1) == 13 then len1 - 1 else len1
  if byteAt b p == 32 then (true, p + 1, len2 - 1) else (false, p, len2)

/-- BufMan::getMeta.  The badMeta cases mirror the source: no hash at the
position or a comment with no linefeed left return an empty-named default meta
without advancing (the C++ header loop then spins; see headerLoopF); an unknown
metadata type tag skips the whole line. -/
def getMeta (b : Buf) (metaLoc : Int) (metaIdx : Nat) (pos : Nat) : GetMetaRes :=
  if byteAt b pos ≠ 35 then ⟨[], metaDefault, pos, metaIdx⟩
  else
    let p := pos + 1
    if byteAt b p ≠ 35 then
      match strchrP b p 10 with
      | none => ⟨[], metaDefault, pos, metaIdx⟩
      | some eol =>
        let key := commentName metaLoc metaIdx
        let t := trimText b p eol
        let s := takeToNull ((b.drop t.2.1).take t.2.2)
        let m : MetaT :=
          { metaDefault with
              mtype := -2
              payload := s
              stripped := t.1
              loc := metaLoc
              index := metaIdx
              mname := key }
        ⟨key, m, eol + 1, metaIdx + 1⟩
    else
      let p2 := p + 1
      let p3 := skipChar 91 b true p2
      match metaTypeIdx b p3 with
      | none => ⟨[], metaDefault, skipLine b pos, metaIdx⟩
      | some ti =>
        let p4 := skipChar 93 b true (p3 + (metaTypeTagB ti).length)
        let nEnd := nameScan b p4
        let key := (b.drop p4).take (nEnd - p4)
        let p5 := skipWS b true nEnd
        let m0 : MetaT := { metaDefault with mtype := (ti : Int) }
        let arr :=
          if byteAt b p5 == 91 then
            let pA := skipWS b true (p5 + 1)
            let dr := ordLoopF b 4 0 pA []
            let pC := skipChar 93 b true dr.2
            let ia := initArrayM m0 (ti : Int) dr.1
            (ia.1, ia.2, pC)
          else (m0, 1, p5)
        let p7 := scanDelimF b (b.length + 1) arr.2.2 + 1
        let fin :=
          if arr.2.1 = 1 then
            if ti = 0 then
              match strchrP b p7 10 with
              | none => none
              | some eol =>
                let t := trimText b p7 eol
                let s := takeToNull ((b.drop t.2.1).take t.2.2)
                some ({ arr.1 with payload := s, stripped := t.1 }, eol)
            else
              let r := readMetaNum b ti p7
              some ({ arr.1 with payload := scalarPayload ti r.1 }, r.2)
          else
            let r := arrReadF b ti arr.2.1 p7 []
            some ({ arr.1 with payload := r.1 }, r.2)
        match fin with
        | none => ⟨[], metaDefault, b.length, metaIdx⟩
        | some f =>
          let m : MetaT := { f.1 with loc := metaLoc, index := metaIdx, mname := key }
          ⟨key, m, skipLine b f.2, metaIdx + 1⟩

end PaxV

namespace PaxV

/-! ## Header line classification (BufMan::getHeaderLineType) -/

inductive HLType where
  | UNKNOWN
  | COMMENT
  | METADATA
  | PAX
  | BPV
  | VPE
  | DIM
  | DATALEN
deriving DecidableEq, Repr

/-- Result of a classification: line type, the position after the whitespace
skip the classifier performs, and the last matched dimension tag index. -/
structure ClassifyR where
  htype : HLType
  pos : Nat
  dimIdx : Nat
deriving DecidableEq, Repr

/-- BufMan::getHeaderLineType: skip whitespace (linefeeds included), then
dispatch on a leading hash (comment), a leading at-sign (the vestigial
metadata marker), or the case-insensitive prefix tags in source order.
Matching either legacy dimension tag records its index. -/
def getHeaderLineType (b : Buf) (pos0 : Nat) (dimIdx0 : Nat) : ClassifyR :=
  let pos := skipWS b true pos0
  if byteAt b pos == 35 then ⟨HLType.COMMENT, pos, dimIdx0⟩
  else if byteAt b pos == 64 then ⟨HLType.METADATA, pos, dimIdx0⟩
  else if tagMatchCI b pos paxTagB then ⟨HLType.PAX, pos, dimIdx0⟩
  else if tagMatchCI b pos bpvTagB then ⟨HLType.BPV, pos, dimIdx0⟩
  else if tagMatchCI b pos vpeTagB then ⟨HLType.VPE, pos, dimIdx0⟩
  else if tagMatchCI b pos datalenTagB then ⟨HLType.DATALEN, pos, dimIdx0⟩
  else if tagMatchCI b pos dim1TagB then ⟨HLType.DIM, pos, 0⟩
  else if tagMatchCI b pos dim2TagB then ⟨HLType.DIM, pos, 1⟩
  else ⟨HLType.UNKNOWN, pos, dimIdx0⟩

/-! ## The header parsing loop (rasterFileBase::importHeader) -/

/-- The scan state of the header loop: buffer position, the cached line type
(NOT_CHECKED is none), the last dimension tag index, the structural values and
seen-counts, the buffer manager's metadata location and index, and the
metadata map.  The C++ BufMan leaves its dimension index and metadata index
uninitialized until first set; the model starts them at 0. -/
structure ScanState where
  pos : Nat
  cache : Option HLType
  dimIdx : Nat
  bpv : Nat
  vpe : Nat
  seq : Nat
  strided : Nat
  dim1count : Nat
  dim2count : Nat
  datalencount : Nat
  dataLen : Nat
  metaLoc : Int
  metaIdx : Nat
  map : MetaMap
deriving DecidableEq, Repr

/-- The skip-unknown-lines inner loop: classify; while the line is unknown and
the end of the buffer has not been reached, skip a line and classify again.
The classification reached (possibly UNKNOWN at the end of the buffer) is
cached for the next outer iteration. -/
def skipUnknownsF (b : Buf) : Nat → Nat → Nat → (HLType × Nat × Nat)
  | 0, pos, d => (HLType.UNKNOWN, pos, d)
  | fuel + 1, pos, d =>
    let c := getHeaderLineType b pos d
    if c.htype = HLType.UNKNOWN then
      if c.pos ≥ b.length then (HLType.UNKNOWN, c.pos, c.dimIdx)
      else skipUnknownsF b fuel (skipLine b c.pos) c.dimIdx
    else (c.htype, c.pos, c.dimIdx)

/-- One pass of the importHeader while loop, with fuel.  Structural values are
read with getUint32 skipping delimiter and linefeed; each structural tag sets
the metadata location to LOC_AFTER_TAG and the index to the object's counter
for that location (count0) - the per-region locations of the original design
are commented out in the source (TEMPCODE: single meta location).  DATA_LENGTH
ends the loop.  Running out of fuel models the C++ executions that spin
forever (for instance on a lone at-sign line, where getMeta does not advance). -/
def headerLoopF (b : Buf) (count0 : Nat) : Nat → ScanState → ScanState
  | 0, st => st
  | fuel + 1, st =>
    if st.pos ≥ b.length then st
    else
      let c : ClassifyR :=
        match st.cache with
        | none => getHeaderLineType b st.pos st.dimIdx
        | some t => ⟨t, st.pos, st.dimIdx⟩
      match c.htype with
      | HLType.DATALEN =>
        let r := getU32 b true true c.pos
        { st with
            pos := r.2
            dataLen := r.1
            datalencount := st.datalencount + 1
            dimIdx := c.dimIdx
            cache := none }
      | HLType.UNKNOWN =>
        let u := skipUnknownsF b (b.length + 1) (skipLine b c.pos) c.dimIdx
        headerLoopF b count0 fuel
          { st with pos := u.2.1, cache := some u.1, dimIdx := u.2.2 }
      | HLType.PAX =>
        let u := skipUnknownsF b (b.length + 1) (skipLine b c.pos) c.dimIdx
        headerLoopF b count0 fuel
          { st with
              pos := u.2.1
              cache := some u.1
              dimIdx := u.2.2
              metaLoc := 0
              metaIdx := count0 }
      | HLType.BPV =>
        let r := getU32 b true true c.pos
        headerLoopF b count0 fuel
          { st with
              pos := r.2
              bpv := r.1
              metaLoc := 0
              metaIdx := count0
              cache := none
              dimIdx := c.dimIdx }
      | HLType.VPE =>
        let r := getU32 b true true c.pos
        headerLoopF b count0 fuel
          { st with
              pos := r.2
              vpe := r.1
              metaLoc := 0
              metaIdx := count0
              cache := none
              dimIdx := c.dimIdx }
      | HLType.DIM =>
        let r := getU32 b true true c.pos
        if c.dimIdx = 0 then
          headerLoopF b count0 fuel
            { st with
                pos := r.2
                seq := r.1
                dim1count := st.dim1count + 1
                metaLoc := 0
                metaIdx := count0
                cache := none
                dimIdx := c.dimIdx }
        else
          headerLoopF b count0 fuel
            { st with
                pos := r.2
                strided := r.1
                dim2count := st.dim2count + 1
                metaLoc := 0
                metaIdx := count0
                cache := none
                dimIdx := c.dimIdx }
      | HLType.COMMENT =>
        let g := getMeta b st.metaLoc st.metaIdx c.pos
        headerLoopF b count0 fuel
          { st with
              pos := g.pos
              metaIdx := g.metaIdx
              map := mapSet st.map g.key g.m
              cache := none
              dimIdx := c.dimIdx }
      | HLType.METADATA =>
        let g := getMeta b st.metaLoc st.metaIdx c.pos
        headerLoopF b count0 fuel
          { st with
              pos := g.pos
              metaIdx := g.metaIdx
              map := mapSet st.map g.key g.m
              cache := none
              dimIdx := c.dimIdx }

/-- Result of the header import: return code, whether the PAX tag validated
(the data type and version are only written from that point on), the type and
version read, and the final scan state. -/
structure CoreRes where
  ret : Int
  tagOk : Bool
  dataType : Int
  version : Int
  st : ScanState
deriving DecidableEq, Repr

/-- The initial scan state of importHeader. -/
def initScan (pos : Nat) (seq0 strided0 : Nat) (meta0 : MetaMap) : ScanState :=
  { pos := pos, cache := none, dimIdx := 0, bpv := 0, vpe := 0, seq := seq0,
    strided := strided0, dim1count := 0, dim2count := 0, datalencount := 0,
    dataLen := 0, metaLoc := 0, metaIdx := 0, map := meta0 }

/-- The required-tag and shape validation at the end of importHeader, in source
order: exactly one of each legacy dimension line and exactly one DATA_LENGTH
line; then the (last read) bpv and vpe against the registry values of the type
read from the PAX line; then the declared data length against the product.
Each failure yields PAX_INVALID (-14).  The product is computed in 32-bit
machine arithmetic - int32_t elemLen = bpv * vpe, then
int32_t myDataLen = elemLen * _numSequential * _numStrided with the uint32_t
dimension members, so every multiplication wraps modulo 2^32 (the int32
overflow, undefined in the standard, wraps the same way on the targeted
compilers), and dataLen (itself a 32-bit value as stored by getUint32) is
compared against the wrapped product. -/
def validateScan (dt : Int) (st : ScanState) : Int :=
  if ¬(st.dim1count = 1 ∧ st.dim2count = 1 ∧ st.datalencount = 1) then -14
  else if st.bpv ≠ getBPVn dt then -14
  else if st.vpe ≠ getVPEn dt then -14
  else if st.dataLen ≠ (st.bpv * st.vpe * st.seq * st.strided) % 4294967296 then -14
  else 0

/-- rasterFileBase::importHeader over a whole buffer, carrying the object
fields it reads: the initial dimension members, the LOC_AFTER_TAG counter and
the existing metadata map (getMetaRef allocates an empty one when absent).
A failed tag validation returns PAX_FAIL (-13) before any assignment. -/
def importHeaderCore (b : Buf) (seq0 strided0 count0 : Nat) (meta0 : MetaMap) : CoreRes :=
  let t := validatePaxTag b 0 0
  if t.ok then
    let st := headerLoopF b count0 (b.length + 1) (initScan t.pos seq0 strided0 meta0)
    ⟨validateScan t.ptype st, true, t.ptype, t.ver, st⟩
  else
    ⟨-13, false, t.ptype, t.ver, initScan t.pos seq0 strided0 meta0⟩

/-! ## The rasterFile object state and import -/

/-- The rasterFile fields the import and write paths touch.  The class template
parameter E is not part of the state; writeToBuffer receives it separately. -/
structure RFState where
  dataType : Int
  version : Int
  importedLength : Nat
  numValues : Nat
  numSequential : Nat
  numStrided : Nat
  rbuf : Option (List Nat)
  meta : Option MetaMap
  metaLoc : Int
  metaLocCount : List Nat
deriving DecidableEq, Repr

/-- rasterFile::reset: clear the dimension counters, the raster buffer, the
metadata map and the location counters; the metadata location returns to
LOC_END.  The data type, version and imported length are not touched. -/
def resetS (s : RFState) : RFState :=
  { s with
      numValues := 0
      numSequential := 0
      numStrided := 0
      rbuf := none
      meta := none
      metaLoc := 4
      metaLocCount := List.replicate 5 0 }

/-- A freshly constructed rasterFile of template type E (the constructor sets
the data type, the current library version 1.00 and then resets). -/
def freshRF (E : Int) : RFState :=
  { dataType := E, version := 100, importedLength := 0, numValues := 0,
    numSequential := 0, numStrided := 0, rbuf := none, meta := none,
    metaLoc := 4, metaLocCount := List.replicate 5 0 }

/-- The condition under which rasterFile::import(char*,size_t) resets the
object before parsing. -/
def importTrigger (s : RFState) : Bool :=
  s.numValues ≠ 0 ∨ s.numSequential ≠ 0 ∨ s.numStrided ≠ 0 ∨
    s.rbuf ≠ none ∨ s.meta ≠ none

/-- The per-location buckets of getMetaVecs.  An entry whose location is
outside 0..4 (only the badMeta placeholder, at LOC_UNKNOWN) would make the
C++ vector::at throw; such entries reach no bucket here. -/
def bucket (m : MetaMap) (i : Nat) : List (List Nat × MetaT) :=
  m.filter (fun e => e.2.loc = (i : Int))

/-- Stable insertion by ascending index (std::sort with the index comparator;
the source never produces equal indices in one bucket except through the
TEMPCODE index resets, where the order among equals is unspecified - the
model keeps map order). -/
def insertByIdx (x : List Nat × MetaT) : List (List Nat × MetaT) → List (List Nat × MetaT)
  | [] => [x]
  | y :: ys => if y.2.index ≤ x.2.index then y :: insertByIdx x ys else x :: y :: ys

def sortByIdx : List (List Nat × MetaT) → List (List Nat × MetaT)
  | [] => []
  | x :: xs => insertByIdx x (sortByIdx xs)

/-- getMetaVecs: the location-i bucket sorted by ascending index. -/
def metaVec (m : MetaMap) (i : Nat) : List (List Nat × MetaT) :=
  sortByIdx (bucket m i)

/-- The body of rasterFile::import(char*,size_t) after the conditional reset:
header import, raster copy (BufMan::copyData copies nothing when fewer than
dataLen bytes remain - the fresh buffer stays zeroed), metadata counters from
the sorted buckets, imported length from the final buffer offset. -/
def importRun (s1 : RFState) (b : Buf) : Int × RFState :=
  let c := importHeaderCore b s1.numSequential s1.numStrided
    (s1.metaLocCount.getD 0 0) (s1.meta.getD [])
  let s2 :=
    if c.tagOk then
      { s1 with
          dataType := c.dataType
          version := c.version
          numSequential := c.st.seq
          numStrided := c.st.strided
          meta := some c.st.map
          numValues := if c.ret = 0 then c.st.seq * c.st.strided else s1.numValues }
    else s1
  if c.ret ≠ 0 then (-13, s2)
  else
    let pos := c.st.pos
    let dl := c.st.dataLen
    let remain := b.length - pos
    let raster := if dl ≤ remain then (b.drop pos).take dl else List.replicate dl 0
    let newPos := if dl ≤ remain then pos + dl else pos
    let counts := (List.range 5).map (fun i => (metaVec c.st.map i).length)
    (0, { s2 with
            rbuf := some raster
            metaLocCount := counts
            importedLength := newPos })

/-- rasterFile::import(char*,size_t): a used object (any dimension count,
raster buffer or metadata map present) is reset first, then the parse runs. -/
def importBuf (s : RFState) (b : Buf) : Int × RFState :=
  importRun (if importTrigger s then resetS s else s) b

/-- rasterFile::import(pax_filestring), given the bytes the file read produced:
a stream shorter than MIN_PAX_LENGTH = 128 bytes is rejected as too short
before the buffer import runs. -/
def importFromFile (s : RFState) (fileBytes : Buf) : Int × RFState :=
  if fileBytes.length < 128 then (-13, s)
  else importBuf s fileBytes

end PaxV

namespace PaxV

/-! ## The header writer (rasterFile::writeMeta / writeToBuffer) -/

/-- Rendering of the model's decimal-hundredths float reading, standing in for
the default ostream formatting of the stored float or double (the development
never evaluates the writer on numeric metadata). -/
def renderHundredths (v : Int) : List Nat :=
  let sgn : List Nat := if v < 0 then [45] else []
  let n := v.natAbs
  if n % 100 = 0 then sgn ++ natDec (n / 100)
  else if n % 10 = 0 then sgn ++ natDec (n / 100) ++ [46] ++ natDec (n % 100 / 10)
  else sgn ++ natDec (n / 100) ++ [46] ++ natDec (n % 100 / 10) ++ natDec (n % 10)

/-- One written metadata value of kind ti, from its payload bytes: the signed
integer kinds print through the signed view of their width, the unsigned ones
through the unsigned view, floats and doubles through the hundredths model. -/
def renderMetaVal (ti : Nat) (bytes : List Nat) : List Nat :=
  if ti = 1 ∨ ti = 2 then renderHundredths (decLES bytes)
  else if ti = 3 ∨ ti = 5 ∨ ti = 7 ∨ ti = 9 then intDec (decLES bytes)
  else natDec (decLE bytes)

/-- The row-length accumulation of writeMeta: multiply dimensions left to right
while below 16 (the sibling subrowlength accumulator of the source is never
used in the output). -/
def rowLenF : List Nat → Nat → Nat
  | [], r => r
  | d :: ds, r => if r < 16 then rowLenF ds (r * d) else r

/-- The bracketed dimension list of an array metadata line. -/
def dimsPartF : List Nat → Nat → List Nat
  | [], _ => []
  | d :: ds, i => strBytes " " ++ ordTagB i ++ strBytes " = " ++ natDec d ++ dimsPartF ds (i + 1)

/-- The value section of a numeric metadata line: a leading newline-and-space
before every row of a multidimensional array, then a space and the value. -/
def numValsF (ti w rowlength : Nat) (multi : Bool) (payload : List Nat) : Nat → Nat → List Nat
  | 0, _ => []
  | n + 1, i =>
    (if i % rowlength = 0 ∧ multi then strBytes "\n " else [])
      ++ [32] ++ renderMetaVal ti ((payload.drop (i * w)).take w)
      ++ numValsF ti w rowlength multi payload n (i + 1)

/-- One metadata entry as written by writeMeta.  Comments and strings restore
the stripped leading space; invalid entries are skipped; a numeric entry gets
the 11-column tag field, the name, the optional dimension list, the delimiter
and its values.  (Type values outside the enum cannot arise and are written as
nothing.) -/
def writeMetaEntry (e : List Nat × MetaT) : List Nat :=
  let m := e.2
  if m.mtype = -2 then
    (if m.stripped then strBytes "# " else [35]) ++ m.payload ++ [10]
  else if m.mtype = 0 then
    strBytes "## [string]   " ++ e.1
      ++ (if m.stripped then strBytes " = " else strBytes " =") ++ m.payload ++ [10]
  else if m.mtype = -1 then []
  else if 1 ≤ m.mtype ∧ m.mtype ≤ 10 then
    let ti := m.mtype.toNat
    let w := metaTypeSize ti
    let count := if m.numDims = 0 then 1 else m.dims.foldl (fun a d => a * d) 1
    let rowlength := if m.numDims ≥ 1 then rowLenF m.dims 1 else 1
    let tagfield := (strBytes "[" ++ metaTypeTagB ti ++ strBytes "]      ").take 11
    let dimsPart :=
      if m.numDims ≥ 1 then strBytes " [" ++ dimsPartF m.dims 0 ++ strBytes " ]" else []
    strBytes "## " ++ tagfield ++ e.1 ++ dimsPart ++ strBytes " ="
      ++ numValsF ti w rowlength (m.numDims > 1) m.payload count 0 ++ [10]
  else []

/-- All written metadata lines of one location bucket. -/
def writeMetaVec (l : List (List Nat × MetaT)) : List Nat :=
  (l.map writeMetaEntry).flatten

/-- rasterFile::writeToBuffer.  The template type E supplies the name, bpv and
vpe (while the type code number comes from the stored data type); each
location bucket is written between the structural lines; the header length is
its strlen, so everything after an embedded NUL would be dropped; the raster
is appended verbatim. -/
def writeToBuffer (E : Int) (s : RFState) : List Nat :=
  let bpvE := getBPVn E
  let vpeE := getVPEn E
  let dataLen := bpvE * vpeE * s.numSequential * s.numStrided
  let mm := s.meta.getD []
  let header :=
    paxTagB ++ intDec s.dataType ++ strBytes " : v" ++ fixed2 s.version
      ++ strBytes " : " ++ typeNameB E ++ [10]
      ++ writeMetaVec (metaVec mm 0) ++ bpvTagB ++ strBytes " : " ++ natDec bpvE ++ [10]
      ++ writeMetaVec (metaVec mm 1) ++ vpeTagB ++ strBytes " : " ++ natDec vpeE ++ [10]
      ++ writeMetaVec (metaVec mm 2) ++ dim1TagB ++ strBytes " : "
      ++ natDec s.numSequential ++ [10]
      ++ writeMetaVec (metaVec mm 3) ++ dim2TagB ++ strBytes " : "
      ++ natDec s.numStrided ++ [10]
      ++ writeMetaVec (metaVec mm 4) ++ datalenTagB ++ strBytes " : "
      ++ natDec dataLen ++ [10]
  let headerS := takeToNull header
  let payload := s.rbuf.getD []
  headerS ++ (if dataLen > 0 then
    payload.take dataLen ++ List.replicate (dataLen - payload.length) 0 else [])

/-! ## Metadata store operations (rasterFile::addMeta / addMetaVal) -/

/-- The location-argument resolution common to the add functions: an argument
at LOC_UNKNOWN or below, or at LOC_COUNT or above, falls back to the object's
current location. -/
def resolveLoc (s : RFState) (loc : Int) : Int :=
  if loc ≤ -1 ∨ 5 ≤ loc then s.metaLoc else loc

/-- Bump entry i of the location counters. -/
def bumpCount (l : List Nat) (i : Nat) : List Nat :=
  l.set i (l.getD i 0 + 1)

/-- rasterFile::addMeta: resolve the location, then unconditionally stamp the
given meta with that location and the next index of its counter (the counter
always advances, name present in the map or not); for a comment,
meta.commentName() rewrites the entry's stored name to the synthesized
;loc;index form, but the map is keyed by the name parameter the caller passed
(the empty string for addComment(meta_t)) either way. -/
def addMeta (s : RFState) (name : List Nat) (m : MetaT) (loc : Int) : RFState :=
  let l := resolveLoc s loc
  let li := l.toNat
  let idx := s.metaLocCount.getD li 0
  let m1 := { m with loc := l, index := idx }
  let m2 := if m1.mtype = -2 then { m1 with mname := commentName l idx } else m1
  { s with
      meta := some (mapSet (s.meta.getD []) name m2)
      metaLocCount := bumpCount s.metaLocCount li
      metaLoc := l }

/-- rasterFile::addMetaVal for a float value (the payload bytes stand for the
stored union member f): location resolution, unconditional fresh index,
assignment into the map. -/
def addMetaValFloat (s : RFState) (name : List Nat) (payload4 : List Nat) (loc : Int) : RFState :=
  let l := resolveLoc s loc
  let li := l.toNat
  let idx := s.metaLocCount.getD li 0
  let m : MetaT :=
    { metaDefault with
        loc := l
        index := idx
        mtype := 1
        mname := name
        payload := payload4 }
  { s with
      meta := some (mapSet (s.meta.getD []) name m)
      metaLocCount := bumpCount s.metaLocCount li
      metaLoc := l }

/-- rasterFile::addMetaVal for a double value. -/
def addMetaValDouble (s : RFState) (name : List Nat) (payload8 : List Nat) (loc : Int) : RFState :=
  let l := resolveLoc s loc
  let li := l.toNat
  let idx := s.metaLocCount.getD li 0
  let m : MetaT :=
    { metaDefault with
        loc := l
        index := idx
        mtype := 2
        mname := name
        payload := payload8 }
  { s with
      meta := some (mapSet (s.meta.getD []) name m)
      metaLocCount := bumpCount s.metaLocCount li
      metaLoc := l }

/-! ## Metadata accessors -/

/-- Result of a metadata accessor: the error status with a NaN value, or a
normally returned payload view. -/
inductive MFloat where
  | err : MFloat
  | val : List Nat → MFloat
deriving DecidableEq, Repr

/-- rasterFileBase::getMetaFloat (scalar form): a missing name or an entry of
invalid type produce the error status (NaN result); every other entry - of
whatever kind - returns the float union member, i.e. the first four payload
bytes, arrays through their buffer, scalars through f.  No kind check is
performed. -/
def getMetaFloat (m : MetaMap) (key : List Nat) : MFloat :=
  match mapFind m key with
  | none => MFloat.err
  | some e =>
    if e.mtype = -1 then MFloat.err
    else if e.numDims ≠ 0 then MFloat.val (e.payload.take 4)
    else MFloat.val (e.payload.take 4)

/-- Result of the flat-index computation: the failure status (index zero is
returned with it), or the flattened index. -/
inductive IdxRes where
  | err : IdxRes
  | ok : Nat → IdxRes
deriving DecidableEq, Repr

/-- meta::getMetaArrayIndex's loop, separated from the record: the index
arithmetic over the dims, walked left to right with a running multiplier; a
component at or above its dimension sets the failure status and returns 0.
(The third case is unreachable under the caller's length guard.) -/
def gmaiGo : List Nat → List Nat → Nat → Nat → IdxRes
  | [], _, idx, _ => IdxRes.ok idx
  | i :: is, d :: ds, idx, mul =>
    if i ≥ d then IdxRes.err
    else gmaiGo is ds (idx + i * mul) (mul * d)
  | _ :: _, [], _, _ => IdxRes.err

/-- meta::getMetaArrayIndex: the guard on the index count, then the loop.
(The third gmaiGo case is unreachable under the guard.) -/
def getMetaArrayIndex (dims indices : List Nat) : IdxRes :=
  if indices.length > dims.length then IdxRes.err
  else gmaiGo indices dims 0 1

/-! ## The raster element accessor (rasterFile::value) -/

/-- rasterFile::value with element type size tsize: a missing buffer or an
out-of-range coordinate return the junk reference (none - not a reference
into the raster); otherwise the reference into the raster at element index
x + y * numSequential, i.e. byte offset (x + y * numSequential) * tsize.
The requested type is never checked against the raster's element type. -/
def valueRef (numSeq numStrided : Nat) (hasBuf : Bool) (tsize x y : Nat) : Option Nat :=
  if hasBuf = false ∨ x ≥ numSeq ∨ y ≥ numStrided then none
  else some ((x + y * numSeq) * tsize)

/-- Modelled from the spec: the claimed accessor behaviour, for comparison
with valueRef - the element at x + y*dims[0] as a reference of the
caller-chosen scalar type, and None when out of range OR when the raster type
is incompatible with the requested one (sizes standing for the types). -/
def valueXYSpec (numSeq numStrided : Nat) (hasBuf : Bool)
    (rasterSize reqSize x y : Nat) : Option Nat :=
  if hasBuf = false ∨ x ≥ numSeq ∨ y ≥ numStrided ∨ rasterSize ≠ reqSize then none
  else some ((x + y * numSeq) * reqSize)

end PaxV

namespace PaxV

/-! ## Concrete models and streams used by the claims -/

/-- A PAX_UCHAR 4 x 1 model whose raster begins with a space byte (0x20). -/
def mC1 : RFState :=
  { dataType := 101, version := 100, importedLength := 0, numValues := 4,
    numSequential := 4, numStrided := 1, rbuf := some [32, 65, 66, 67],
    meta := none, metaLoc := 4, metaLocCount := List.replicate 5 0 }

/-- A valid PAX_UCHAR 2 x 2 stream whose header carries the BYTES_PER_VALUE
line twice. -/
def inC2 : Buf := strBytes "PAX101 : v1.00 : PAX_UCHAR\nBYTES_PER_VALUE : 1\nBYTES_PER_VALUE : 1\nVALUES_PER_ELEMENT : 1\nELEMENTS_IN_SEQUENTIAL_DIMENSION : 2\nELEMENTS_IN_STRIDED_DIMENSION : 2\nDATA_LENGTH : 4\nWXYZ"

/-- A PAX_UCHAR header declaring 65536 x 65536 elements and DATA_LENGTH 0:
the true element count is 2^32, but the 32-bit product used by the validation
wraps to 0 and matches the declared length, so the header validates. -/
def inC2w : Buf := strBytes "PAX101 : v1.00 : PAX_UCHAR\nBYTES_PER_VALUE : 1\nVALUES_PER_ELEMENT : 1\nELEMENTS_IN_SEQUENTIAL_DIMENSION : 65536\nELEMENTS_IN_STRIDED_DIMENSION : 65536\nDATA_LENGTH : 0\n"

/-- Number of occurrences of a byte sequence in a buffer (used to state, on
the claim's side, how many BYTES_PER_VALUE lines an input carries). -/
def countSub (b : Buf) (tag : List Nat) : Nat :=
  ((List.range b.length).filter (fun i => (b.drop i).take tag.length == tag)).length

/-- A Double-kind scalar entry named pi (the payload holds the eight stored
bytes of the double). -/
def mPi : MetaT :=
  { metaDefault with
      mtype := 2
      payload := [24, 45, 68, 84, 251, 33, 9, 64]
      loc := 4
      index := 0
      mname := strBytes "pi" }

/-- A metadata store binding pi to a Double-kind scalar entry. -/
def storeC3 : MetaMap := [(strBytes "pi", mPi)]

/-- A valid PAX_UCHAR 2 x 2 stream with a comment between the BYTES_PER_VALUE
and VALUES_PER_ELEMENT lines (header region AFTER_BPV). -/
def inC4 : Buf := strBytes "PAX101 : v1.00 : PAX_UCHAR\nBYTES_PER_VALUE : 1\n# hello\nVALUES_PER_ELEMENT : 1\nELEMENTS_IN_SEQUENTIAL_DIMENSION : 2\nELEMENTS_IN_STRIDED_DIMENSION : 2\nDATA_LENGTH : 4\nWXYZ"

/-- The stream the writer produces after decoding inC4: the comment has moved
in front of the BYTES_PER_VALUE line (region AFTER_TAG). -/
def outC4 : Buf := strBytes "PAX101 : v1.00 : PAX_UCHAR\n# hello\nBYTES_PER_VALUE : 1\nVALUES_PER_ELEMENT : 1\nELEMENTS_IN_SEQUENTIAL_DIMENSION : 2\nELEMENTS_IN_STRIDED_DIMENSION : 2\nDATA_LENGTH : 4\nWXYZ"

/-- A valid PAX_UCHAR 2 x 2 stream, upper-case PAX tag. -/
def inC5 : Buf := strBytes "PAX101 : v1.00 : PAX_UCHAR\nBYTES_PER_VALUE : 1\nVALUES_PER_ELEMENT : 1\nELEMENTS_IN_SEQUENTIAL_DIMENSION : 2\nELEMENTS_IN_STRIDED_DIMENSION : 2\nDATA_LENGTH : 4\nWXYZ"

/-- inC5 with only the case of its first three bytes changed: pax101 ... -/
def inC5low : Buf := (inC5.take 3).map lowerB ++ inC5.drop 3

/-- A 127-byte PAX_META_ONLY stream (type 199, bpv 0, vpe 0, 1 x 1, data
length 0). -/
def inC7 : Buf := strBytes "PAX199\nBYTES_PER_VALUE:0\nVALUES_PER_ELEMENT:0\nELEMENTS_IN_SEQUENTIAL_DIMENSION:1\nELEMENTS_IN_STRIDED_DIMENSION:1\nDATA_LENGTH:0\n"

/-- Stored bytes of the float 3.1416 as first written for the name pi. -/
def pay4C9 : List Nat := [86, 14, 73, 64]

/-- Stored bytes of the double 3.141592653589793 then written for pi. -/
def pay8C9 : List Nat := [24, 45, 68, 84, 251, 33, 9, 64]

/-- The store after adding float pi at the default location of a fresh file. -/
def s9a : RFState := addMetaValFloat (freshRF 109) (strBytes "pi") pay4C9 (-1)

/-- The store after overwriting pi with a double value. -/
def s9b : RFState := addMetaValDouble s9a (strBytes "pi") pay8C9 (-1)

/-- A case-variant function: one whose lower-casing agrees with the identity's
(it may change the case of letters arbitrarily but nothing else). -/
def caseVar (f : Nat → Nat) : Prop := ∀ b, lowerB (f b) = lowerB b

/-- The Horner form of the flat-index accumulation of getMetaArrayIndex. -/
def hornerIdx : List Nat → List Nat → Nat
  | [], _ => 0
  | _ :: _, [] => 0
  | i :: is, d :: ds => i + d * hornerIdx is ds

/-- The representation invariant every reachable rasterFile satisfies: an
object without a metadata map has all location counters at zero and its
current location at LOC_END (the counters only advance through the add
functions, which allocate the map; reset and init clear both together). -/
def rfInv (s : RFState) : Prop :=
  s.meta = none → s.metaLocCount = List.replicate 5 0 ∧ s.metaLoc = 4

end PaxV

namespace PaxV

/-! ## Claim theorems -/

set_option maxRecDepth 200000 in
/-- C1: decoding the encoding of the valid PAX_UCHAR model whose 4-byte raster
begins with a space byte succeeds, but returns an all-zero raster instead of
the original bytes: after reading the DATA_LENGTH value the parser's
junk-and-whitespace skip consumes the linefeed AND the leading
whitespace-class raster bytes, so copyData finds too few bytes and copies
nothing.  The raster does not round-trip byte for byte. -/
theorem C1_raster_roundtrip_bug :
    (importBuf (freshRF 101) (writeToBuffer 101 mC1)).1 = 0 ∧
    (importBuf (freshRF 101) (writeToBuffer 101 mC1)).2.rbuf = some [0, 0, 0, 0] ∧
    (importBuf (freshRF 101) (writeToBuffer 101 mC1)).2.rbuf ≠ mC1.rbuf := by
  decide

set_option maxRecDepth 200000 in
/-- C2 counterexample: a stream whose header contains the BYTES_PER_VALUE line
twice decodes successfully (return PAX_OK and the full raster), refuting that
decode succeeds only when the header has exactly one such line. -/
theorem C2_duplicate_bpv_accepted :
    countSub inC2 bpvTagB = 2 ∧
    (importBuf (freshRF 101) inC2).1 = 0 ∧
    (importBuf (freshRF 101) inC2).2.rbuf = some [87, 88, 89, 90] := by
  decide

set_option maxRecDepth 200000 in
/-- C4: a comment located in region AFTER_BPV of the input (between the
BYTES_PER_VALUE and VALUES_PER_ELEMENT lines) is stored with location
LOC_AFTER_TAG (0) - every setLoc call of importHeader passes LOC_AFTER_TAG
(TEMPCODE: single meta location) - and the writer therefore emits it in
region AFTER_TAG, before the BYTES_PER_VALUE line. -/
theorem C4_location_not_preserved :
    (importBuf (freshRF 101) inC4).1 = 0 ∧
    (mapFind ((importBuf (freshRF 101) inC4).2.meta.getD []) (commentName 0 0)).map
      (fun e => (e.loc, e.index)) = some (0, 0) ∧
    writeToBuffer 101 (importBuf (freshRF 101) inC4).2 = outC4 := by
  decide

set_option maxRecDepth 200000 in
/-- C7 counterexample: this 127-byte stream decodes successfully through the
buffer entry point rasterFile::import(char*,size_t), which performs no
minimum-length check; only the file entry point rejects short streams. -/
theorem C7_short_buffer_accepted :
    inC7.length = 127 ∧
    (importBuf (freshRF 199) inC7).1 = 0 ∧
    (importBuf (freshRF 199) inC7).2.dataType = 199 := by
  decide

/-- C7 amended: the 128-byte minimum is enforced by the file-based import
alone - rasterFile::import(pax_filestring) fails for every file whose
contents are shorter than MIN_PAX_LENGTH = 128 bytes, whatever they are and
whatever the prior object state. -/
theorem C7_file_import_minimum :
    ∀ (s : RFState) (b : Buf), b.length < 128 → (importFromFile s b).1 = -13 := by
  intro s b h
  unfold importFromFile
  simp [h]

/-- C7 amended witness at the empty stream. -/
theorem C7_file_import_minimum_w :
    ([] : Buf).length < 128 ∧ (importFromFile (freshRF 101) []).1 = -13 :=
  ⟨by decide, C7_file_import_minimum (freshRF 101) [] (by decide)⟩

/-- C3 counterexample: getMetaFloat on the name pi, bound to a Double-kind
scalar entry, does not fail with a type mismatch; it returns (status OK) the
float union member, i.e. the first four bytes of the stored double payload. -/
theorem C3_double_read_as_float_cx :
    mPi.mtype = 2 ∧ mPi.numDims = 0 ∧
    getMetaFloat storeC3 (strBytes "pi") = MFloat.val [24, 45, 68, 84] := by
  decide

/-- C3 amended: for every store and every name bound to a Double-kind scalar
entry, getMetaFloat performs no kind check: it succeeds and returns the first
four payload bytes (the union member f overlaying the stored double). -/
theorem C3_double_read_as_float :
    ∀ (m : MetaMap) (k : List Nat) (e : MetaT),
      mapFind m k = some e → e.mtype = 2 → e.numDims = 0 →
      getMetaFloat m k = MFloat.val (e.payload.take 4) := by
  intro m k e hf ht _hd
  unfold getMetaFloat
  rw [hf]
  simp [ht]

/-- C3 amended witness at the concrete pi store. -/
theorem C3_double_read_as_float_w :
    mapFind storeC3 (strBytes "pi") = some mPi ∧
    getMetaFloat storeC3 (strBytes "pi") = MFloat.val (mPi.payload.take 4) :=
  ⟨by decide, C3_double_read_as_float storeC3 (strBytes "pi") mPi (by decide) (by decide) (by decide)⟩

end PaxV

namespace PaxV

theorem validateScan_zero (dt : Int) (st : ScanState) (h : validateScan dt st = 0) :
    st.dim1count = 1 ∧ st.dim2count = 1 ∧ st.datalencount = 1 ∧
    st.bpv = getBPVn dt ∧ st.vpe = getVPEn dt ∧
    st.dataLen = (st.bpv * st.vpe * st.seq * st.strided) % 4294967296 := by
  unfold validateScan at h
  split at h
  · exact absurd h (by decide)
  · split at h
    · exact absurd h (by decide)
    · split at h
      · exact absurd h (by decide)
      · split at h
        · exact absurd h (by decide)
        · rename_i h1 h2 h3 h4
          rw [not_not] at h1
          push_neg at h2 h3 h4
          exact ⟨h1.1, h1.2.1, h1.2.2, h2, h3, h4⟩

/-- C2 amended: importHeader succeeds (returns 0) only when the validation
counters of the finished scan hold: the DIM1, DIM2 and DATA_LENGTH counters
each equal 1, the parsed bpv and vpe equal the registry values for the data
type, and the declared data length equals bpv * vpe * seq * strided reduced
modulo 2^32 - the comparison the source makes with 32-bit values, so a
stream whose true product reaches 2^32 can validate against a wrapped
declared length.  (There is no counter for BYTES_PER_VALUE or
VALUES_PER_ELEMENT lines: those may repeat, see the counterexample.) -/
theorem C2_success_requires_validation :
    ∀ (b : Buf) (seq0 strided0 count0 : Nat) (m0 : MetaMap),
      (importHeaderCore b seq0 strided0 count0 m0).ret = 0 →
      ((importHeaderCore b seq0 strided0 count0 m0).st.dim1count = 1 ∧
       (importHeaderCore b seq0 strided0 count0 m0).st.dim2count = 1 ∧
       (importHeaderCore b seq0 strided0 count0 m0).st.datalencount = 1 ∧
       (importHeaderCore b seq0 strided0 count0 m0).st.bpv
         = getBPVn (importHeaderCore b seq0 strided0 count0 m0).dataType ∧
       (importHeaderCore b seq0 strided0 count0 m0).st.vpe
         = getVPEn (importHeaderCore b seq0 strided0 count0 m0).dataType ∧
       (importHeaderCore b seq0 strided0 count0 m0).st.dataLen
         = ((importHeaderCore b seq0 strided0 count0 m0).st.bpv
           * (importHeaderCore b seq0 strided0 count0 m0).st.vpe
           * (importHeaderCore b seq0 strided0 count0 m0).st.seq
           * (importHeaderCore b seq0 strided0 count0 m0).st.strided) % 4294967296) := by
  intro b a1 a2 a3 m0 h
  simp only [importHeaderCore] at h ⊢
  cases hok : (validatePaxTag b 0 0).ok with
  | true =>
    rw [hok] at h
    simp only [reduceIte] at h ⊢
    exact validateScan_zero _ _ h
  | false =>
    rw [hok] at h
    have h2 : (-13 : Int) = 0 := h
    exact absurd h2 (by decide)

end PaxV

namespace PaxV

set_option maxRecDepth 200000 in
/-- C2 witness, at the wrap-around stream: the 65536 x 65536 header with
declared DATA_LENGTH 0 parses successfully, and the validation equations -
with the product taken modulo 2^32, where 65536 * 65536 wraps to 0 - all
hold of its finished scan. -/
theorem C2_success_requires_validation_w :
    (importHeaderCore inC2w 0 0 0 []).st.dim1count = 1 ∧
    (importHeaderCore inC2w 0 0 0 []).st.dim2count = 1 ∧
    (importHeaderCore inC2w 0 0 0 []).st.datalencount = 1 ∧
    (importHeaderCore inC2w 0 0 0 []).st.bpv
      = getBPVn (importHeaderCore inC2w 0 0 0 []).dataType ∧
    (importHeaderCore inC2w 0 0 0 []).st.vpe
      = getVPEn (importHeaderCore inC2w 0 0 0 []).dataType ∧
    (importHeaderCore inC2w 0 0 0 []).st.dataLen
      = ((importHeaderCore inC2w 0 0 0 []).st.bpv * (importHeaderCore inC2w 0 0 0 []).st.vpe
        * (importHeaderCore inC2w 0 0 0 []).st.seq * (importHeaderCore inC2w 0 0 0 []).st.strided)
        % 4294967296 :=
  C2_success_requires_validation inC2w 0 0 0 [] (by decide)

/-- C8 counterexample: with 2 x 2 dimensions and a buffer present, the
value<T> accessor hands out a reference for element size 8 (a type wider
than the stored one) without any type check, so the claim's None-on-
incompatible-type behaviour does not hold of value<T> itself; only the
size-specialised XY wrapper rejects it. -/
theorem C8_incompatible_type_not_refused :
    valueRef 2 2 true 8 0 0 = some 0 ∧ valueXYSpec 2 2 true 4 8 0 0 = none := by
  decide

/-- C8 amended: the value<T>-style accessor returns a reference to byte
offset (x + y * numSequential) * sizeof(T) of the raster buffer whenever the
buffer exists and x, y are within the dimensions, and returns nothing when
the buffer is absent or either coordinate is out of range - but it performs
no check that T matches the stored data type. -/
theorem C8_value_accessor :
    ∀ (numSeq numStrided tsize x y : Nat) (hasBuf : Bool),
      (hasBuf = true → x < numSeq → y < numStrided →
        valueRef numSeq numStrided hasBuf tsize x y = some ((x + y * numSeq) * tsize)) ∧
      ((hasBuf = false ∨ numSeq ≤ x ∨ numStrided ≤ y) →
        valueRef numSeq numStrided hasBuf tsize x y = none) := by
  intro numSeq numStrided tsize x y hasBuf
  constructor
  · intro hb hx hy
    unfold valueRef
    rw [if_neg]
    push_neg
    refine ⟨by simp [hb], by omega, by omega⟩
  · intro h
    unfold valueRef
    rw [if_pos]
    rcases h with h | h | h
    · exact Or.inl h
    · exact Or.inr (Or.inl h)
    · exact Or.inr (Or.inr h)

/-- C8 witness: in-range and out-of-range lookups on a 2 x 2 raster of
4-byte elements. -/
theorem C8_value_accessor_w :
    valueRef 2 2 true 4 1 1 = some ((1 + 1 * 2) * 4) ∧ valueRef 2 2 true 4 2 0 = none :=
  ⟨(C8_value_accessor 2 2 4 1 1 true).1 rfl (by decide) (by decide),
   (C8_value_accessor 2 2 4 2 0 true).2 (Or.inr (Or.inl (by decide)))⟩

theorem mapFind_mapSet (m : MetaMap) (k : List Nat) (v : MetaT) :
    mapFind (mapSet m k v) k = some v := by
  induction m with
  | nil => simp [mapSet, mapFind]
  | cons e rest ih =>
    rcases e with ⟨k0, v0⟩
    unfold mapSet
    by_cases h : k0 = k
    · simp [h, mapFind]
    · simp [h, mapFind, ih]

theorem bumpCount_getD (l : List Nat) (i : Nat) (h : i < l.length) :
    (bumpCount l i).getD i 0 = l.getD i 0 + 1 := by
  unfold bumpCount
  induction l generalizing i with
  | nil => simp at h
  | cons a t ih =>
    cases i with
    | zero => simp
    | succ n =>
      simp only [List.set, List.getD_cons_succ]
      exact ih n (by simpa using h)

/-- C9 counterexample: after addMetaVal("pi", float) followed by
addMetaVal("pi", double) on a fresh object, the surviving entry holds index
1, not the index 0 the first insertion assigned, and the location counter
has advanced to 2: overwriting does NOT keep the existing entry's index. -/
theorem C9_overwrite_takes_fresh_slot :
    (mapFind (s9a.meta.getD []) (strBytes "pi")).map (fun e => (e.loc, e.index))
      = some (4, 0) ∧
    (mapFind (s9b.meta.getD []) (strBytes "pi")).map (fun e => (e.loc, e.index))
      = some (4, 1) ∧
    s9b.metaLocCount = [0, 0, 0, 0, 2] := by
  decide

/-- C9 amended: every addMetaVal call, whether the name is new or already
bound, stores the entry with index = the location counter's current value
and increments that counter (index = _metaLocCount[loc]++ runs
unconditionally). -/
theorem C9_add_assigns_fresh_index :
    ∀ (s : RFState) (name p4 : List Nat) (loc : Int),
      s.metaLocCount.length = 5 →
      0 ≤ resolveLoc s loc → resolveLoc s loc < 5 →
      ((mapFind ((addMetaValFloat s name p4 loc).meta.getD []) name).map (fun e => e.index)
        = some (s.metaLocCount.getD (resolveLoc s loc).toNat 0) ∧
       (addMetaValFloat s name p4 loc).metaLocCount.getD (resolveLoc s loc).toNat 0
        = s.metaLocCount.getD (resolveLoc s loc).toNat 0 + 1) := by
  intro s name p4 loc hlen h0 h5
  constructor
  · simp [addMetaValFloat, mapFind_mapSet]
  · have hi : (resolveLoc s loc).toNat < s.metaLocCount.length := by omega
    simp only [addMetaValFloat]
    exact bumpCount_getD _ _ hi

/-- C9 witness: a first insertion on a fresh object receives index 0. -/
theorem C9_add_assigns_fresh_index_w :
    (mapFind ((addMetaValFloat (freshRF 109) (strBytes "pi") pay4C9 (-1)).meta.getD [])
      (strBytes "pi")).map (fun e => e.index) = some 0 := by
  rw [(C9_add_assigns_fresh_index (freshRF 109) (strBytes "pi") pay4C9 (-1)
    (by decide) (by decide) (by decide)).1]
  decide

end PaxV

namespace PaxV

theorem caseVar_fix (f : Nat → Nat) (hf : caseVar f) (c : Nat)
    (h1 : c < 97) (h2 : ¬(65 ≤ c ∧ c ≤ 90)) : ∀ x, f x = c ↔ x = c := by
  intro x
  constructor
  · intro h
    have hx := hf x
    rw [h] at hx
    unfold lowerB at hx
    rw [if_neg h2] at hx
    by_cases hx2 : 65 ≤ x ∧ x ≤ 90
    · rw [if_pos hx2] at hx
      omega
    · rw [if_neg hx2] at hx
      omega
  · intro h
    subst h
    have hx := hf x
    unfold lowerB at hx
    rw [if_neg h2] at hx
    by_cases hfc : 65 ≤ f x ∧ f x ≤ 90
    · rw [if_pos hfc] at hx
      omega
    · rw [if_neg hfc] at hx
      exact hx

theorem byteAt_map (f : Nat → Nat) (hf : caseVar f) (b : Buf) (p : Nat) :
    byteAt (b.map f) p = f (byteAt b p) := by
  unfold byteAt
  rw [List.getD_eq_getElem?_getD, List.getD_eq_getElem?_getD, List.getElem?_map]
  cases h : b[p]? with
  | none =>
    have hf0 : f 0 = 0 := (caseVar_fix f hf 0 (by omega) (by omega) 0).mpr rfl
    simp [hf0]
  | some x => simp

theorem beq_map (f : Nat → Nat) (hf : caseVar f) (c : Nat)
    (h1 : c < 97) (h2 : ¬(65 ≤ c ∧ c ≤ 90)) (x : Nat) : (f x == c) = (x == c) := by
  by_cases h : x = c
  · simp [h, (caseVar_fix f hf c h1 h2 c).mpr rfl]
  · have hne : f x ≠ c := fun hh => h ((caseVar_fix f hf c h1 h2 x).mp hh)
    simp [h, hne]

theorem isWSb_map (f : Nat → Nat) (hf : caseVar f) (lf : Bool) (x : Nat) :
    isWSb lf (f x) = isWSb lf x := by
  unfold isWSb
  rw [beq_map f hf 32 (by omega) (by omega), beq_map f hf 9 (by omega) (by omega),
      beq_map f hf 13 (by omega) (by omega), beq_map f hf 10 (by omega) (by omega)]

theorem skipWSF_map (f : Nat → Nat) (hf : caseVar f) (b : Buf) (lf : Bool) :
    ∀ (fuel p : Nat), skipWSF (b.map f) lf fuel p = skipWSF b lf fuel p := by
  intro fuel
  induction fuel with
  | zero => intro p; rfl
  | succ n ih =>
    intro p
    unfold skipWSF
    rw [byteAt_map f hf, isWSb_map f hf]
    split
    · exact ih (p + 1)
    · rfl

theorem skipWS_map (f : Nat → Nat) (hf : caseVar f) (b : Buf) (lf : Bool) (p : Nat) :
    skipWS (b.map f) lf p = skipWS b lf p := by
  unfold skipWS
  rw [List.length_map]
  exact skipWSF_map f hf b lf _ p

theorem map_lower_eq (f : Nat → Nat) (hf : caseVar f) (l : List Nat) :
    (l.map f).map lowerB = l.map lowerB := by
  induction l with
  | nil => rfl
  | cons a t ih => simp [hf a, ih]

theorem tagMatchCI_map (f : Nat → Nat) (hf : caseVar f) (b : Buf) (p : Nat) (tag : List Nat) :
    tagMatchCI (b.map f) p tag = tagMatchCI b p tag := by
  unfold tagMatchCI
  rw [← List.map_drop, ← List.map_take, map_lower_eq f hf]

end PaxV

namespace PaxV

theorem metaTypeIdx_map (f : Nat → Nat) (hf : caseVar f) (b : Buf) (p : Nat) :
    metaTypeIdx (b.map f) p = metaTypeIdx b p := by
  unfold metaTypeIdx
  simp only [tagMatchCI_map f hf]

theorem getHeaderLineType_map (f : Nat → Nat) (hf : caseVar f) (b : Buf) (p d : Nat) :
    getHeaderLineType (b.map f) p d = getHeaderLineType b p d := by
  unfold getHeaderLineType
  simp only [skipWS_map f hf, byteAt_map f hf, tagMatchCI_map f hf,
    beq_map f hf 35 (by omega) (by omega), beq_map f hf 64 (by omega) (by omega)]

theorem lowerB_caseVar : caseVar lowerB := by
  intro b
  by_cases h : 65 ≤ b ∧ b ≤ 90
  · have h1 : lowerB b = b + 32 := by
      unfold lowerB
      rw [if_pos h]
    rw [h1]
    unfold lowerB
    rw [if_neg (by omega)]
  · have h1 : lowerB b = b := by
      unfold lowerB
      rw [if_neg h]
    rw [h1]
    exact h1

/-- C5 amended, part 1: for every case-variation map f (a map that changes
only letter case), header line classification, metadata type tag lookup and
ordinal tag matching are unchanged under mapping the buffer through f: all
tag matches after the leading PAX tag go through case-blind comparison. -/
theorem C5_tag_matching_case_insensitive :
    ∀ (f : Nat → Nat), caseVar f → ∀ (b : Buf) (p d : Nat),
      getHeaderLineType (b.map f) p d = getHeaderLineType b p d ∧
      metaTypeIdx (b.map f) p = metaTypeIdx b p ∧
      ∀ i, tagMatchCI (b.map f) p (ordTagB i) = tagMatchCI b p (ordTagB i) :=
  fun f hf b p d =>
    ⟨getHeaderLineType_map f hf b p d, metaTypeIdx_map f hf b p,
     fun i => tagMatchCI_map f hf b p (ordTagB i)⟩

/-- C5 witness: lowercasing a Data_Length line does not change its
classification, which is DATALEN. -/
theorem C5_tag_matching_case_insensitive_w :
    getHeaderLineType ((strBytes "Data_Length : 4\n").map lowerB) 0 0
      = getHeaderLineType (strBytes "Data_Length : 4\n") 0 0 ∧
    (getHeaderLineType (strBytes "Data_Length : 4\n") 0 0).htype = HLType.DATALEN :=
  ⟨(C5_tag_matching_case_insensitive lowerB lowerB_caseVar (strBytes "Data_Length : 4\n") 0 0).1,
   by decide⟩

set_option maxRecDepth 200000 in
/-- C5 counterexample: the leading PAX tag itself is matched with
case-SENSITIVE strncmp - lowercasing just the three bytes "PAX" of an
otherwise valid stream turns a successful decode into the -13 failure - so
the claim's "every tag match is case-insensitive" is false for the type
line's PAX tag. -/
theorem C5_pax_tag_case_sensitive :
    inC5low = (inC5.take 3).map lowerB ++ inC5.drop 3 ∧
    (importBuf (freshRF 101) inC5).1 = 0 ∧
    (importBuf (freshRF 101) inC5low).1 = -13 := by
  decide

end PaxV

namespace PaxV

theorem hornerIdx_nil (ds : List Nat) : hornerIdx [] ds = 0 := rfl

theorem hornerIdx_cons (i d : Nat) (it dt : List Nat) :
    hornerIdx (i :: it) (d :: dt) = i + d * hornerIdx it dt := rfl

theorem gmaiGo_ok : ∀ (is0 ds : List Nat) (A M : Nat),
    is0.length ≤ ds.length →
    (∀ k, k < is0.length → is0.getD k 0 < ds.getD k 0) →
    gmaiGo is0 ds A M = IdxRes.ok (A + M * hornerIdx is0 ds) := by
  intro is0
  induction is0 with
  | nil =>
    intro ds A M _ _
    unfold gmaiGo hornerIdx
    cases ds <;> simp
  | cons i it ih =>
    intro ds A M hlen hlt
    cases ds with
    | nil => simp at hlen
    | cons d dt =>
      have h0 : i < d := by
        have := hlt 0 (by simp)
        simpa using this
      unfold gmaiGo
      rw [if_neg (by omega)]
      rw [ih dt (A + i * M) (M * d) (by simpa using hlen) ?hb]
      case hb =>
        intro k hk
        have := hlt (k + 1) (by simpa using Nat.succ_lt_succ hk)
        simpa using this
      rw [hornerIdx_cons]
      congr 1
      ring

theorem gmaiGo_err : ∀ (is0 ds : List Nat) (A M : Nat),
    (∃ k, k < is0.length ∧ k < ds.length ∧ ds.getD k 0 ≤ is0.getD k 0) →
    gmaiGo is0 ds A M = IdxRes.err := by
  intro is0
  induction is0 with
  | nil =>
    intro ds A M h
    rcases h with ⟨k, hk, _, _⟩
    simp at hk
  | cons i it ih =>
    intro ds A M h
    cases ds with
    | nil =>
      unfold gmaiGo
      rfl
    | cons d dt =>
      unfold gmaiGo
      by_cases hge : i ≥ d
      · rw [if_pos hge]
      · rw [if_neg hge]
        apply ih
        rcases h with ⟨k, hk1, hk2, hk3⟩
        cases k with
        | zero => simp at hk3; omega
        | succ n =>
          refine ⟨n, by simpa using hk1, by simpa using hk2, ?_⟩
          simpa using hk3

theorem hornerIdx_eq_sum : ∀ (is0 ds : List Nat), is0.length ≤ ds.length →
    hornerIdx is0 ds = ∑ k in Finset.range is0.length,
      is0.getD k 0 * ∏ j in Finset.range k, ds.getD j 0 := by
  intro is0
  induction is0 with
  | nil => intro ds _; cases ds <;> simp [hornerIdx_nil]
  | cons i it ih =>
    intro ds hlen
    cases ds with
    | nil => simp at hlen
    | cons d dt =>
      rw [hornerIdx_cons]
      rw [ih dt (by simpa using hlen)]
      simp only [List.length_cons]
      rw [Finset.sum_range_succ' (fun k => (i :: it).getD k 0 * ∏ j in Finset.range k, (d :: dt).getD j 0) it.length]
      simp only [List.getD_cons_succ, List.getD_cons_zero, Finset.range_zero,
        Finset.prod_empty, mul_one]
      rw [add_comm i]
      congr 1
      rw [Finset.mul_sum]
      apply Finset.sum_congr rfl
      intro k _
      rw [Finset.prod_range_succ' (fun j => (d :: dt).getD j 0) k]
      simp only [List.getD_cons_succ, List.getD_cons_zero]
      ring

/-- C6: getMetaArrayIndex with dimensions [d0, ..., d(n-1)] and indices
[i0, ...] of length at most n, each index below its dimension, returns the
flat index sum over k of i_k * product of d_j for j < k (first dimension
fastest); with too many indices or any index at or above its dimension it
returns the error value. -/
theorem C6_flat_index :
    (∀ (dims indices : List Nat), indices.length ≤ dims.length →
       (∀ k, k < indices.length → indices.getD k 0 < dims.getD k 0) →
       getMetaArrayIndex dims indices
         = IdxRes.ok (∑ k in Finset.range indices.length,
             indices.getD k 0 * ∏ j in Finset.range k, dims.getD j 0)) ∧
    (∀ (dims indices : List Nat),
       (dims.length < indices.length ∨
         ∃ k, k < indices.length ∧ k < dims.length ∧ dims.getD k 0 ≤ indices.getD k 0) →
       getMetaArrayIndex dims indices = IdxRes.err) := by
  constructor
  · intro dims indices hlen hlt
    unfold getMetaArrayIndex
    rw [if_neg (by omega)]
    rw [gmaiGo_ok indices dims 0 1 hlen hlt]
    rw [hornerIdx_eq_sum indices dims hlen]
    simp
  · intro dims indices h
    unfold getMetaArrayIndex
    by_cases hl : indices.length > dims.length
    · rw [if_pos hl]
    · rw [if_neg hl]
      apply gmaiGo_err
      rcases h with h | h
      · omega
      · exact h

/-- C6 witness: dimensions [2, 3, 4] with indices [1, 2, 3] give the Horner
sum, and an out-of-range index errors. -/
theorem C6_flat_index_w :
    getMetaArrayIndex [2, 3, 4] [1, 2, 3]
      = IdxRes.ok (∑ k in Finset.range 3,
          [1, 2, 3].getD k 0 * ∏ j in Finset.range k, [2, 3, 4].getD j 0) ∧
    getMetaArrayIndex [2, 3] [1, 5] = IdxRes.err :=
  ⟨C6_flat_index.1 [2, 3, 4] [1, 2, 3] (by decide)
     (by
       intro k hk
       simp at hk
       interval_cases k <;> decide),
   C6_flat_index.2 [2, 3] [1, 5] (Or.inr ⟨1, by decide, by decide, by decide⟩)⟩

end PaxV

namespace PaxV

theorem trigger_false_facts (s : RFState) (h : importTrigger s = false) :
    s.numValues = 0 ∧ s.numSequential = 0 ∧ s.numStrided = 0 ∧
    s.rbuf = none ∧ s.meta = none := by
  unfold importTrigger at h
  simp only [decide_eq_false_iff_not] at h
  push_neg at h
  exact h

theorem prepFacts (s : RFState) (hi : rfInv s) :
    (if importTrigger s then resetS s else s).numSequential = 0 ∧
    (if importTrigger s then resetS s else s).numStrided = 0 ∧
    (if importTrigger s then resetS s else s).metaLocCount.getD 0 0 = 0 ∧
    (if importTrigger s then resetS s else s).meta = none ∧
    (if importTrigger s then resetS s else s).metaLoc = 4 := by
  cases ht : importTrigger s with
  | true => simp [resetS]
  | false =>
    have hf := trigger_false_facts s ht
    have hc := hi hf.2.2.2.2
    simp [hf.2.1, hf.2.2.1, hf.2.2.2.1, hf.2.2.2.2, hc.1, hc.2]

theorem core_ret_zero_tagOk (b : Buf) (a1 a2 a3 : Nat) (m0 : MetaMap)
    (h : (importHeaderCore b a1 a2 a3 m0).ret = 0) :
    (importHeaderCore b a1 a2 a3 m0).tagOk = true := by
  simp only [importHeaderCore] at h ⊢
  cases hok : (validatePaxTag b 0 0).ok with
  | true =>
    simp only [reduceIte]
  | false =>
    rw [hok] at h
    exact absurd (show (-13 : Int) = 0 from h) (by decide)

theorem importRun_ret_clean (s1 : RFState) (b : Buf)
    (h1 : s1.numSequential = 0) (h2 : s1.numStrided = 0)
    (h3 : s1.metaLocCount.getD 0 0 = 0) (h4 : s1.meta = none) :
    (importRun s1 b).1 = if (importHeaderCore b 0 0 0 []).ret ≠ 0 then -13 else 0 := by
  simp only [importRun]
  rw [h1, h2, h3, h4]
  simp only [Option.getD_none]
  by_cases hc : (importHeaderCore b 0 0 0 []).ret ≠ 0
  · rw [if_pos hc, if_pos hc]
  · rw [if_neg hc, if_neg hc]

theorem importRun_state_clean (s1 : RFState) (b : Buf)
    (h1 : s1.numSequential = 0) (h2 : s1.numStrided = 0)
    (h3 : s1.metaLocCount.getD 0 0 = 0) (h4 : s1.meta = none) (h5 : s1.metaLoc = 4)
    (hok : (importHeaderCore b 0 0 0 []).ret = 0) :
    (importRun s1 b).2 = (importRun (freshRF 0) b).2 := by
  have htag := core_ret_zero_tagOk b 0 0 0 [] hok
  have hrep : ((List.replicate 5 0 : List Nat)).getD 0 0 = 0 := rfl
  simp only [importRun, freshRF]
  rw [h1, h2, h3, h4, h5]
  simp only [Option.getD_none, hrep]
  rw [if_pos htag, if_pos htag]
  rw [if_pos hok, if_pos hok]
  have hne : ¬((importHeaderCore b 0 0 0 []).ret ≠ 0) := by simp [hok]
  rw [if_neg hne, if_neg hne]

/-- C10: rasterFile::import(char*,size_t) first resets any used object, so
for any two prior states satisfying the reachability invariant rfInv, the
same input buffer produces the same return code, and on success the same
resulting object state. -/
theorem C10_import_independent_of_prior_state :
    ∀ (s1 s2 : RFState) (b : Buf), rfInv s1 → rfInv s2 →
      (importBuf s1 b).1 = (importBuf s2 b).1 ∧
      ((importBuf s1 b).1 = 0 → (importBuf s1 b).2 = (importBuf s2 b).2) := by
  intro s1 s2 b hi1 hi2
  have p1 := prepFacts s1 hi1
  have p2 := prepFacts s2 hi2
  unfold importBuf
  constructor
  · rw [importRun_ret_clean _ b p1.1 p1.2.1 p1.2.2.1 p1.2.2.2.1,
        importRun_ret_clean _ b p2.1 p2.2.1 p2.2.2.1 p2.2.2.2.1]
  · intro hz
    rw [importRun_ret_clean _ b p1.1 p1.2.1 p1.2.2.1 p1.2.2.2.1] at hz
    have hok : (importHeaderCore b 0 0 0 []).ret = 0 := by
      by_cases hc : (importHeaderCore b 0 0 0 []).ret = 0
      · exact hc
      · rw [if_pos hc] at hz
        exact absurd hz (by decide)
    rw [importRun_state_clean _ b p1.1 p1.2.1 p1.2.2.1 p1.2.2.2.1 p1.2.2.2.2 hok,
        importRun_state_clean _ b p2.1 p2.2.1 p2.2.2.1 p2.2.2.2.1 p2.2.2.2.2 hok]

set_option maxRecDepth 200000 in
/-- C10 witness: importing the valid 2 x 2 stream into a used object (the
C1 model, holding a raster and dimensions) and into a fresh one gives the
same return code and the same state. -/
theorem C10_import_independent_of_prior_state_w :
    (importBuf mC1 inC5).1 = (importBuf (freshRF 0) inC5).1 ∧
    (importBuf mC1 inC5).2 = (importBuf (freshRF 0) inC5).2 := by
  have h := C10_import_independent_of_prior_state mC1 (freshRF 0) inC5 (by unfold rfInv; decide) (by unfold rfInv; decide)
  exact ⟨h.1, h.2 (by decide)⟩

end PaxV
